import Mathlib

/-!
Shallow embedding of `src/cryptography/sha.rs` (crate `blockchain`).

Machine integers are modelled as `Nat` with explicit reduction `% 2^32`
(`u32`) or `% 2^64` (`usize`) exactly where Rust wrapping or truncation
occurs.  Operations that can panic in Rust (failed `assert!`, index out of
range, slice-range inversion, `unimplemented!`, `expect`) are modelled as
`Option`/`Except` failures.  Buffers are `List Nat`; in-place mutation
becomes explicit state passing.
-/

set_option maxRecDepth 100000

namespace Blockchain

/-- Rust `u32` wrapping addition (`u32::wrapping_add`). -/
def wadd32 (a b : Nat) : Nat := (a + b) % 2 ^ 32

/-- Rust `u32::rotate_left`.  For `x < 2^32` the shifted-out high bits re-enter at
the bottom; the two summands occupy disjoint bit ranges, so `+` equals the
bitwise or used by the machine instruction. -/
def rotl32 (x n : Nat) : Nat := ((x % 2 ^ 32) <<< n + (x % 2 ^ 32) >>> (32 - n)) % 2 ^ 32

/-- Rust `u32::rotate_right`. -/
def rotr32 (x n : Nat) : Nat := ((x % 2 ^ 32) >>> n + (x % 2 ^ 32) <<< (32 - n)) % 2 ^ 32

/-- Rust `u32` logical right shift `x >> n`. -/
def shr32 (x n : Nat) : Nat := (x % 2 ^ 32) >>> n

/-- Rust `u32` bitwise complement `!x`. -/
def not32 (x : Nat) : Nat := (x % 2 ^ 32) ^^^ 0xFFFFFFFF

/-- Lowercase hexadecimal digit table. -/
def hex_char (d : Nat) : Char := "0123456789abcdef".toList.getD d '0'

/-- Rust format `08x` written by `write!` for a `u32` value: exactly 8 lowercase hex
digits, zero-padded (a `u32` never needs more than 8). -/
def to_hex_8 (w : Nat) : List Char :=
  (List.range 8).map (fun i => hex_char (w / 16 ^ (7 - i) % 16))

/-- Rust `pub enum SHA` — the algorithm selector. -/
inductive SHA
  | SHA1
  | SHA224
  | SHA256
  | SHA384
  | SHA512
  | SHA512_224
  | SHA512_256
deriving DecidableEq

namespace sha_common

/-- Rust `struct PaddingParameters` (fields `remainder`, `block_size` are `u128`,
`length_size` is `usize`; all byte counts, so plain `Nat`). -/
structure PaddingParameters where
  remainder : Nat
  block_size : Nat
  length_size : Nat
deriving DecidableEq

/-- Rust `const PADDING_PARAMETERS: [PaddingParameters; 2]`. -/
def PADDING_PARAMETERS : List PaddingParameters :=
  [{ remainder := 448 / 8, block_size := 512 / 8, length_size := 64 / 8 },
   { remainder := 896 / 8, block_size := 1024 / 8, length_size := 128 / 8 }]

/-- Rust `fn include_separator(bytes: &mut [u8], buffer_size: &mut usize)`.
Returns `none` when the `assert!(bytes.len() != *buffer_size)` fails, or when
the write `bytes[*buffer_size]` would be out of range (index panic). -/
def include_separator (bytes : List Nat) (buffer_size : Nat) : Option (List Nat × Nat) :=
  if bytes.length = buffer_size then none
  else if buffer_size < bytes.length then
    some (bytes.set buffer_size (1 <<< 7), buffer_size + 1)
  else none

/-- Rust `message_length.to_be_bytes()` for a 64-bit `usize`: 8 big-endian bytes. -/
def usize_to_be_bytes (message_length : Nat) : List Nat :=
  (List.range 8).map (fun k => message_length / 2 ^ (8 * (7 - k)) % 256)

/-- The loop body of `include_length`: for each index `i` of `is`, write
`length[length.len() - 1 - i]` to `bytes[bytes.len() - 1 - i]`.  The `usize`
subtractions underflow (and in release mode the wrapped index is out of
range) whenever `i ≥ bytes.len()` or `i ≥ length.len()`; both panics are
modelled as `none`. -/
def include_length_loop (length : List Nat) : List Nat → List Nat → Option (List Nat)
  | bytes, [] => some bytes
  | bytes, i :: rest =>
    if i < bytes.length ∧ i < length.length then
      include_length_loop length
        (bytes.set (bytes.length - 1 - i) (length.getD (length.length - 1 - i) 0)) rest
    else none

/-- Rust `fn include_length(bytes: &mut [u8], message_length: usize, length_size: usize)`.
`for i in (0..length_size).rev()` iterates `i = length_size - 1` down to `0`. -/
def include_length (bytes : List Nat) (message_length length_size : Nat) : Option (List Nat) :=
  include_length_loop (usize_to_be_bytes message_length) bytes (List.range length_size).reverse

/-- Rust `fn include_padding`: `bytes[buffer_size..padding_end].fill(0u8)`.
Rust panics when the range is inverted or past the end; modelled as `none`. -/
def include_padding (bytes : List Nat) (buffer_size padding_end : Nat) : Option (List Nat) :=
  if buffer_size ≤ padding_end ∧ padding_end ≤ bytes.length then
    some (bytes.take buffer_size ++ List.replicate (padding_end - buffer_size) 0 ++ bytes.drop padding_end)
  else none

/-- Rust `pub fn pad_input(bytes: &mut [u8], buffer_size: usize, message_length: usize,
algorithm: SHA, separator: bool) -> u8`.  The returned pair is the status byte
(0 / 1 / 2) together with the mutated buffer. -/
def pad_input (bytes : List Nat) (buffer_size message_length : Nat)
    (algorithm : SHA) (separator : Bool) : Option (Nat × List Nat) :=
  let parameters : PaddingParameters :=
    match algorithm with
    | SHA.SHA1 | SHA.SHA224 | SHA.SHA256 => PADDING_PARAMETERS[0]
    | _ => PADDING_PARAMETERS[1]
  if bytes.length = buffer_size then
    some (0, bytes)
  else
    match (if separator then include_separator bytes buffer_size else some (bytes, buffer_size)) with
    | none => none
    | some (bytes1, buffer_size1) =>
      if separator ∧ bytes1.length - buffer_size1 < parameters.length_size then
        some (1, bytes1)
      else
        match include_length bytes1 message_length parameters.length_size with
        | none => none
        | some bytes2 =>
          match include_padding bytes2 buffer_size1 (bytes2.length - parameters.length_size) with
          | none => none
          | some bytes3 => some (2, bytes3)

end sha_common

namespace sha1

/-- Rust `const WORDS_SCHEDULE_SIZE: usize = 80`. -/
def WORDS_SCHEDULE_SIZE : Nat := 80

/-- Rust `const WORD_SIZE_BYTES: usize = size_of::<u32>()`. -/
def WORD_SIZE_BYTES : Nat := 4

/-- Rust `const K: [u32; 4]`. -/
def K : List Nat := [0x5A827999, 0x6ED9EBA1, 0x8F1BBCDC, 0xCA62C1D6]

/-- Rust `const INITIAL: [u32; 5]`. -/
def INITIAL : List Nat := [0x67452301, 0xEFCDAB89, 0x98BADCFE, 0x10325476, 0xC3D2E1F0]

/-- Rust `fn ch`. -/
def ch (x y z : Nat) : Nat := (x &&& y) ^^^ (not32 x &&& z)

/-- Rust `fn parity`. -/
def parity (x y z : Nat) : Nat := x ^^^ y ^^^ z

/-- Rust `fn maj`. -/
def maj (x y z : Nat) : Nat := (x &&& y) ^^^ (x &&& z) ^^^ (y &&& z)

/-- Rust `fn inner_function`. -/
def inner_function (iteration : Nat) (variable1 variable2 variable3 : Nat) : Nat :=
  if iteration ≤ 19 then ch variable1 variable2 variable3
  else if iteration ≤ 39 then parity variable1 variable2 variable3
  else if iteration ≤ 59 then maj variable1 variable2 variable3
  else parity variable1 variable2 variable3

/-- Rust `fn inner_k`. -/
def inner_k (iteration : Nat) : Nat :=
  if iteration ≤ 19 then K[0]
  else if iteration ≤ 39 then K[1]
  else if iteration ≤ 59 then K[2]
  else K[3]

/-- Rust `u32::from_be_bytes` applied to chunk `i` of `bytes.chunks_exact(4)`. -/
def word_at (bytes : List Nat) (i : Nat) : Nat :=
  bytes.getD (4 * i) 0 * 2 ^ 24 + bytes.getD (4 * i + 1) 0 * 2 ^ 16 +
    bytes.getD (4 * i + 2) 0 * 2 ^ 8 + bytes.getD (4 * i + 3) 0

/-- First loop of `process_block`: `words[i] = u32::from_be_bytes(chunk)` for
each of the `bytes.len() / 4` exact chunks, over `vec![0; 80]`. -/
def fill_words (bytes : List Nat) : List Nat :=
  (List.range (bytes.length / WORD_SIZE_BYTES)).foldl
    (fun words i => words.set i (word_at bytes i))
    (List.replicate WORDS_SCHEDULE_SIZE 0)

/-- Second loop of `process_block`: for `i in 16..80`,
the loop starts from `word = 0`, xors `words[i - j]` into `word` for `j` in `[3, 8, 14, 16]`, then sets `words[i] = word.rotate_left(1)`. -/
def expand_words (words : List Nat) : List Nat :=
  (List.range' 16 (WORDS_SCHEDULE_SIZE - 16)).foldl
    (fun ws i =>
      ws.set i (rotl32 (0 ^^^ ws.getD (i - 3) 0 ^^^ ws.getD (i - 8) 0 ^^^
        ws.getD (i - 14) 0 ^^^ ws.getD (i - 16) 0) 1))
    words

/-- One iteration of the round loop of `process_block` (index `iw.1`, schedule
word `iw.2`): the five working variables (`vars`, the source's `variables`)
are shifted as in the source. -/
def round_step (vars : List Nat) (iw : Nat × Nat) : List Nat :=
  let tmp := wadd32 (wadd32 (wadd32 (wadd32 (rotl32 (vars.getD 0 0) 5)
    (inner_function iw.1 (vars.getD 1 0) (vars.getD 2 0) (vars.getD 3 0)))
    (vars.getD 4 0)) (inner_k iw.1)) iw.2
  [tmp, vars.getD 0 0, rotl32 (vars.getD 1 0) 30, vars.getD 2 0, vars.getD 3 0]

/-- Rust `fn update_hash_variables`: `hash_variables[j] = variables[j].wrapping_add(hash_variables[j])`
for `j in 0..5` (`vars` is the source's `variables`). -/
def update_hash_variables (vars hash_variables : List Nat) : List Nat :=
  (List.range 5).foldl
    (fun hv j => hv.set j (wadd32 (vars.getD j 0) (hv.getD j 0))) hash_variables

/-- Rust `fn process_block(bytes: &[u8], hash_variables: &mut [u32])`. -/
def process_block (bytes hash_variables : List Nat) : List Nat :=
  let words := expand_words (fill_words bytes)
  let vars := (List.range 5).map (fun i => hash_variables.getD i 0)
  let vars1 := words.enum.foldl round_step vars
  update_hash_variables vars1 hash_variables

/-- The `message_length` computed at the top of `process_final_block`:
`(block_id * (PADDING_PARAMETERS[0].block_size as usize * WORD_SIZE_BYTES) + buffer_size) * 8`
(`usize` arithmetic, hence the reduction modulo `2^64`). -/
def final_message_length (block_id buffer_size : Nat) : Nat :=
  ((block_id * ((sha_common.PADDING_PARAMETERS[0]).block_size * WORD_SIZE_BYTES) + buffer_size) * 8) % 2 ^ 64

/-- Rust `fn process_final_block(bytes: &mut [u8], hash_variables: &mut [u32], block_id: usize, buffer_size: usize)`.
Returns the final hash variables; `none` when a padding call panics. -/
def process_final_block (bytes hash_variables : List Nat) (block_id buffer_size : Nat) :
    Option (List Nat) :=
  let message_length := final_message_length block_id buffer_size
  match sha_common.pad_input bytes buffer_size message_length SHA.SHA1 true with
  | none => none
  | some (success, bytes1) =>
    if success < 2 then
      let hv1 := process_block bytes1 hash_variables
      match sha_common.pad_input bytes1 0 block_id SHA.SHA1 (success != 1) with
      | none => none
      | some (_, bytes2) => some (process_block bytes2 hv1)
    else
      some (process_block bytes1 hash_variables)

/-- The read/compress loop of `pub fn hash`.  The Rust loop runs
`while iteration < 1 << 61`; here `remaining = 2^61 - iteration` counts the
iterations still allowed, so the recursion is structural.  Reading from the
`Cursor` fills the 64-byte buffer from the front with the next input bytes
and leaves the rest of the reused buffer unchanged; a short fill ends the
loop.  Result: `(buffer, buffer_size, iteration, hash_variables)`.  When the
iteration bound is exhausted the loop has just processed a full block, so the
Rust `buffer_size` is 64 at that exit. -/
def hash_loop : Nat → List Nat → List Nat → Nat → List Nat → List Nat × Nat × Nat × List Nat
  | 0, _, buffer, iteration, hash_variables => (buffer, 64, iteration, hash_variables)
  | remaining + 1, input, buffer, iteration, hash_variables =>
    let buffer_size := min 64 input.length
    let buffer1 := input.take buffer_size ++ buffer.drop buffer_size
    if buffer_size < 64 then (buffer1, buffer_size, iteration, hash_variables)
    else hash_loop remaining (input.drop 64) buffer1 (iteration + 1)
      (process_block buffer1 hash_variables)

/-- Rust `pub fn hash<R: Read>(mut reader: R) -> String` for SHA-1, reading the
given byte list through a `Cursor`.  `none` models the `assert!(iteration < 1 << 61)`
panic (or a panicking padding call). -/
def hash (input : List Nat) : Option String :=
  let BLOCK_SIZE : Nat := (sha_common.PADDING_PARAMETERS[0]).block_size
  match hash_loop (2 ^ 61) input (List.replicate BLOCK_SIZE 0) 0 INITIAL with
  | (buffer, buffer_size, iteration, hash_variables) =>
    if iteration < 2 ^ 61 then
      match process_final_block buffer hash_variables iteration buffer_size with
      | none => none
      | some hv => some (String.mk ((hv.map to_hex_8).flatten))
    else none

end sha1

namespace sha256

/-- Rust `const WORDS_SCHEDULE_SIZE: usize = 64`. -/
def WORDS_SCHEDULE_SIZE : Nat := 64

/-- Rust `const WORD_SIZE_BYTES: usize = size_of::<u32>()`. -/
def WORD_SIZE_BYTES : Nat := 4

/-- Rust `const K: [u32; 64]`. -/
def K : List Nat :=
  [0x428A2F98, 0x71374491, 0xB5C0FBCF, 0xE9B5DBA5, 0x3956C25B, 0x59F111F1, 0x923F82A4, 0xAB1C5ED5,
   0xD807AA98, 0x12835B01, 0x243185BE, 0x550C7DC3, 0x72BE5D74, 0x80DEB1FE, 0x9BDC06A7, 0xC19BF174,
   0xE49B69C1, 0xEFBE4786, 0x0FC19DC6, 0x240CA1CC, 0x2DE92C6F, 0x4A7484AA, 0x5CB0A9DC, 0x76F988DA,
   0x983E5152, 0xA831C66D, 0xB00327C8, 0xBF597FC7, 0xC6E00BF3, 0xD5A79147, 0x06CA6351, 0x14292967,
   0x27B70A85, 0x2E1B2138, 0x4D2C6DFC, 0x53380D13, 0x650A7354, 0x766A0ABB, 0x81C2C92E, 0x92722C85,
   0xA2BFE8A1, 0xA81A664B, 0xC24B8B70, 0xC76C51A3, 0xD192E819, 0xD6990624, 0xF40E3585, 0x106AA070,
   0x19A4C116, 0x1E376C08, 0x2748774C, 0x34B0BCB5, 0x391C0CB3, 0x4ED8AA4A, 0x5B9CCA4F, 0x682E6FF3,
   0x748F82EE, 0x78A5636F, 0x84C87814, 0x8CC70208, 0x90BEFFFA, 0xA4506CEB, 0xBEF9A3F7, 0xC67178F2]

/-- Rust `const INITIAL: [u32; 8]`. -/
def INITIAL : List Nat :=
  [0x6A09E667, 0xBB67AE85, 0x3C6EF372, 0xA54FF53A, 0x510E527F, 0x9B05688C, 0x1F83D9AB, 0x5BE0CD19]

/-- Rust `fn ch`. -/
def ch (x y z : Nat) : Nat := (x &&& y) ^^^ (not32 x &&& z)

/-- Rust `fn maj`. -/
def maj (x y z : Nat) : Nat := (x &&& y) ^^^ (x &&& z) ^^^ (y &&& z)

/-- Rust `fn lsigma0`. -/
def lsigma0 (x : Nat) : Nat := rotr32 x 7 ^^^ rotr32 x 18 ^^^ shr32 x 3

/-- Rust `fn lsigma1`. -/
def lsigma1 (x : Nat) : Nat := rotr32 x 17 ^^^ rotr32 x 19 ^^^ shr32 x 10

/-- Rust `fn csigma0`. -/
def csigma0 (x : Nat) : Nat := rotr32 x 2 ^^^ rotr32 x 13 ^^^ rotr32 x 22

/-- Rust `fn csigma1`. -/
def csigma1 (x : Nat) : Nat := rotr32 x 6 ^^^ rotr32 x 11 ^^^ rotr32 x 25

/-- Rust `u32::from_be_bytes` applied to chunk `i` of `bytes.chunks_exact(4)`. -/
def word_at (bytes : List Nat) (i : Nat) : Nat :=
  bytes.getD (4 * i) 0 * 2 ^ 24 + bytes.getD (4 * i + 1) 0 * 2 ^ 16 +
    bytes.getD (4 * i + 2) 0 * 2 ^ 8 + bytes.getD (4 * i + 3) 0

/-- First loop of `process_block`: big-endian words from the block's exact
4-byte chunks, over `vec![0; 64]`. -/
def fill_words (bytes : List Nat) : List Nat :=
  (List.range (bytes.length / WORD_SIZE_BYTES)).foldl
    (fun words i => words.set i (word_at bytes i))
    (List.replicate WORDS_SCHEDULE_SIZE 0)

/-- Second loop of `process_block`: for `i in 16..64`,
`words[i] = lsigma1(words[i-2]) + words[i-7] + lsigma0(words[i-15]) + words[i-16]`
(wrapping adds). -/
def expand_words (words : List Nat) : List Nat :=
  (List.range' 16 (WORDS_SCHEDULE_SIZE - 16)).foldl
    (fun ws i =>
      ws.set i (wadd32 (wadd32 (wadd32 (lsigma1 (ws.getD (i - 2) 0)) (ws.getD (i - 7) 0))
        (lsigma0 (ws.getD (i - 15) 0))) (ws.getD (i - 16) 0)))
    words

/-- One iteration of the round loop of `process_block` (index `iw.1`, schedule
word `iw.2`); `vars` is the source's `variables`. -/
def round_step (vars : List Nat) (iw : Nat × Nat) : List Nat :=
  let tmp1 := wadd32 (wadd32 (wadd32 (wadd32 (vars.getD 7 0) (csigma1 (vars.getD 4 0)))
    (ch (vars.getD 4 0) (vars.getD 5 0) (vars.getD 6 0))) (K.getD iw.1 0)) iw.2
  let tmp2 := wadd32 (csigma0 (vars.getD 0 0)) (maj (vars.getD 0 0) (vars.getD 1 0) (vars.getD 2 0))
  [wadd32 tmp1 tmp2, vars.getD 0 0, vars.getD 1 0, vars.getD 2 0,
    wadd32 (vars.getD 3 0) tmp1, vars.getD 4 0, vars.getD 5 0, vars.getD 6 0]

/-- Rust `fn update_hash_variables` for `j in 0..8`. -/
def update_hash_variables (vars hash_variables : List Nat) : List Nat :=
  (List.range 8).foldl
    (fun hv j => hv.set j (wadd32 (vars.getD j 0) (hv.getD j 0))) hash_variables

/-- Rust `fn process_block(bytes: &[u8], hash_variables: &mut [u32])`. -/
def process_block (bytes hash_variables : List Nat) : List Nat :=
  let words := expand_words (fill_words bytes)
  let vars := (List.range 8).map (fun i => hash_variables.getD i 0)
  let vars1 := words.enum.foldl round_step vars
  update_hash_variables vars1 hash_variables

/-- The `message_length` computed at the top of `sha256::process_final_block`
(identical to the SHA-1 one, including the `usize` wrap-around). -/
def final_message_length (block_id buffer_size : Nat) : Nat :=
  ((block_id * ((sha_common.PADDING_PARAMETERS[0]).block_size * WORD_SIZE_BYTES) + buffer_size) * 8) % 2 ^ 64

/-- Rust `fn process_final_block` of `mod sha256`.  Note that the source passes
`SHA::SHA1` as the algorithm tag in both `pad_input` calls. -/
def process_final_block (bytes hash_variables : List Nat) (block_id buffer_size : Nat) :
    Option (List Nat) :=
  let message_length := final_message_length block_id buffer_size
  match sha_common.pad_input bytes buffer_size message_length SHA.SHA1 true with
  | none => none
  | some (success, bytes1) =>
    if success < 2 then
      let hv1 := process_block bytes1 hash_variables
      match sha_common.pad_input bytes1 0 block_id SHA.SHA1 (success != 1) with
      | none => none
      | some (_, bytes2) => some (process_block bytes2 hv1)
    else
      some (process_block bytes1 hash_variables)

/-- The read/compress loop of `sha256::hash` (same shape as the SHA-1 one;
`remaining = 2^61 - iteration`). -/
def hash_loop : Nat → List Nat → List Nat → Nat → List Nat → List Nat × Nat × Nat × List Nat
  | 0, _, buffer, iteration, hash_variables => (buffer, 64, iteration, hash_variables)
  | remaining + 1, input, buffer, iteration, hash_variables =>
    let buffer_size := min 64 input.length
    let buffer1 := input.take buffer_size ++ buffer.drop buffer_size
    if buffer_size < 64 then (buffer1, buffer_size, iteration, hash_variables)
    else hash_loop remaining (input.drop 64) buffer1 (iteration + 1)
      (process_block buffer1 hash_variables)

/-- Rust `pub fn hash<R: Read>(mut reader: R) -> String` for SHA-256. -/
def hash (input : List Nat) : Option String :=
  let BLOCK_SIZE : Nat := (sha_common.PADDING_PARAMETERS[0]).block_size
  match hash_loop (2 ^ 61) input (List.replicate BLOCK_SIZE 0) 0 INITIAL with
  | (buffer, buffer_size, iteration, hash_variables) =>
    if iteration < 2 ^ 61 then
      match process_final_block buffer hash_variables iteration buffer_size with
      | none => none
      | some hv => some (String.mk ((hv.map to_hex_8).flatten))
    else none

end sha256

/-- The failure modes of the top-level driver: `unimplemented!` for
algorithms without a compression core, and the `assert!`/`expect` panics. -/
inductive ShaFailure
  | UnsupportedAlgorithm
  | AssertionFailed
deriving DecidableEq

/-- Observable outcome of the top-level `pub fn hash(message: &str, algorithm: SHA)`.
The Rust function's return type is `()`: it hands no digest back to its
caller, which `returned := none` records; `printed` lists the lines written
by `println!`. -/
structure DispatchResult where
  returned : Option String
  printed : List String
deriving DecidableEq

/-- Wrapping of the per-algorithm hasher result by the driver: an inner
`assert!` failure aborts, otherwise the digest is printed
with the `Hash Result:` prefix and `()` is returned. -/
def dispatch_result : Option String → Except ShaFailure DispatchResult
  | some res => Except.ok { returned := none, printed := ["Hash Result: " ++ res] }
  | none => Except.error ShaFailure.AssertionFailed

/-- Rust `pub fn hash(message: &str, algorithm: SHA)`: the first `match` asserts
the length bound for implemented algorithms and hits `unimplemented!`
otherwise; the second `match` dispatches to the streaming hasher. -/
def hash (message : List Nat) (algorithm : SHA) : Except ShaFailure DispatchResult :=
  match algorithm with
  | SHA.SHA1 | SHA.SHA256 =>
    if message.length < 2 ^ 61 then
      match algorithm with
      | SHA.SHA1 => dispatch_result (sha1.hash message)
      | SHA.SHA256 => dispatch_result (sha256.hash message)
      | _ => Except.error ShaFailure.UnsupportedAlgorithm
    else Except.error ShaFailure.AssertionFailed
  | _ => Except.error ShaFailure.UnsupportedAlgorithm

/-- Rust `message.as_bytes()` for the ASCII test inputs. -/
def str_bytes (s : String) : List Nat := s.toList.map Char.toNat

/-- Specification-side comparison definition for claim C10: the body of
`sha256::process_final_block` with the algorithm tag the enclosing module
suggests (`SHA::SHA256`) passed to both `pad_input` calls, instead of the
source's `SHA::SHA1`. -/
def sha256.process_final_block_sha256_tagged (bytes hash_variables : List Nat)
    (block_id buffer_size : Nat) : Option (List Nat) :=
  let message_length := sha256.final_message_length block_id buffer_size
  match sha_common.pad_input bytes buffer_size message_length SHA.SHA256 true with
  | none => none
  | some (success, bytes1) =>
    if success < 2 then
      let hv1 := sha256.process_block bytes1 hash_variables
      match sha_common.pad_input bytes1 0 block_id SHA.SHA256 (success != 1) with
      | none => none
      | some (_, bytes2) => some (sha256.process_block bytes2 hv1)
    else
      some (sha256.process_block bytes1 hash_variables)

/-! Helper lemmas about the table-filling folds (`words[i] = …` loops). -/

/-- An index-write fold preserves the length of the table. -/
theorem foldl_set_length (f : List Nat → Nat → Nat) :
    ∀ (l : List Nat) (init : List Nat),
      (l.foldl (fun ws i => ws.set i (f ws i)) init).length = init.length
  | [], _ => rfl
  | i :: rest, init => by
    simpa [List.length_set] using foldl_set_length f rest (init.set i (f init i))

/-- Entries below the written range are untouched by an index-write fold. -/
theorem foldl_set_getD_lt (f : List Nat → Nat → Nat) :
    ∀ (n a j : Nat) (init : List Nat), j < a →
      ((List.range' a n).foldl (fun ws i => ws.set i (f ws i)) init).getD j 0 = init.getD j 0
  | 0, _, _, _, _ => rfl
  | n + 1, a, j, init, h => by
    rw [List.range'_succ, List.foldl_cons,
      foldl_set_getD_lt f n (a + 1) j _ (Nat.lt_succ_of_lt h)]
    simp [List.getD_eq_getElem?_getD, List.getElem?_set_ne (Nat.ne_of_lt h).symm]

/-- The final table after an index-write fold over `[a, a+n)` satisfies, at
each written index `i`, the defining equation with the writes read back from
the FINAL table — provided the write at `i` only consults entries below `i`. -/
theorem foldl_set_getD_final (f : List Nat → Nat → Nat) (a n i : Nat) (init : List Nat)
    (ha : a ≤ i) (hi : i < a + n) (hlen : i < init.length)
    (hf : ∀ ws1 ws2 : List Nat, (∀ j, j < i → ws1.getD j 0 = ws2.getD j 0) → f ws1 i = f ws2 i) :
    ((List.range' a n).foldl (fun ws k => ws.set k (f ws k)) init).getD i 0
      = f ((List.range' a n).foldl (fun ws k => ws.set k (f ws k)) init) i := by
  obtain ⟨m2, hm2⟩ : ∃ m2, n = (i - a) + (1 + m2) := ⟨a + n - i - 1, by omega⟩
  subst hm2
  have hsplit : List.range' a ((i - a) + (1 + m2))
      = List.range' a (i - a) ++ List.range' i (1 + m2) := by
    have happ := List.range'_append_1 a (i - a) (1 + m2)
    rw [show a + (i - a) = i by omega] at happ
    rw [happ, Nat.add_comm]
  rw [hsplit, List.foldl_append]
  set mid := (List.range' a (i - a)).foldl (fun ws k => ws.set k (f ws k)) init with hmid
  have hmidlen : mid.length = init.length := foldl_set_length f _ init
  rw [show (1 + m2) = m2 + 1 by omega, List.range'_succ, List.foldl_cons]
  have hstep : ∀ j, j ≤ i →
      ((List.range' (i + 1) m2).foldl (fun ws k => ws.set k (f ws k))
        (mid.set i (f mid i))).getD j 0 = (mid.set i (f mid i)).getD j 0 :=
    fun j hj => foldl_set_getD_lt f m2 (i + 1) j _ (Nat.lt_succ_of_le hj)
  rw [hstep i (Nat.le_refl i)]
  have hgetset : (mid.set i (f mid i)).getD i 0 = f mid i := by
    simp [List.getD_eq_getElem?_getD, List.getElem?_set_self (hmidlen ▸ hlen)]
  rw [hgetset]
  refine hf mid _ (fun j hj => ?_)
  rw [hstep j (Nat.le_of_lt hj)]
  simp [List.getD_eq_getElem?_getD, List.getElem?_set_ne (Nat.ne_of_gt hj)]

/-! Success and length-preservation lemmas for the padding engine on the
64-byte family, and length preservation of the compression cores. -/

/-- Rust `include_length_loop` succeeds and preserves the buffer length whenever
every visited index is in range for both the buffer and the length array. -/
theorem include_length_loop_some (L : List Nat) :
    ∀ (is bytes : List Nat), (∀ i ∈ is, i < bytes.length ∧ i < L.length) →
      ∃ bytes2, sha_common.include_length_loop L bytes is = some bytes2
        ∧ bytes2.length = bytes.length
  | [], bytes, _ => ⟨bytes, rfl, rfl⟩
  | i :: rest, bytes, h => by
    have hi := h i (List.mem_cons_self i rest)
    obtain ⟨bytes2, h2, hl2⟩ := include_length_loop_some L rest
      (bytes.set (bytes.length - 1 - i) (L.getD (L.length - 1 - i) 0))
      (fun j hj => by simpa [List.length_set] using h j (List.mem_cons_of_mem i hj))
    refine ⟨bytes2, ?_, by simpa [List.length_set] using hl2⟩
    rw [sha_common.include_length_loop, if_pos hi]
    exact h2

/-- Rust `usize_to_be_bytes` always yields 8 bytes. -/
theorem usize_to_be_bytes_length (ml : Nat) : (sha_common.usize_to_be_bytes ml).length = 8 := by
  simp [sha_common.usize_to_be_bytes]

/-- Rust `include_length` with an 8-byte length field succeeds on a 64-byte buffer. -/
theorem include_length_64_some (bytes : List Nat) (ml : Nat) (h : bytes.length = 64) :
    ∃ bytes2, sha_common.include_length bytes ml 8 = some bytes2 ∧ bytes2.length = 64 := by
  obtain ⟨bytes2, h2, hl2⟩ := include_length_loop_some (sha_common.usize_to_be_bytes ml)
    (List.range 8).reverse bytes
    (fun i hi => by
      rw [List.mem_reverse, List.mem_range] at hi
      exact ⟨by omega, by rw [usize_to_be_bytes_length]; omega⟩)
  exact ⟨bytes2, h2, by omega⟩

/-- Rust `include_padding` succeeds (and preserves the length) for a well-ordered
in-range fill region. -/
theorem include_padding_some (bytes : List Nat) (bs pe : Nat) (h1 : bs ≤ pe)
    (h2 : pe ≤ bytes.length) :
    ∃ bytes2, sha_common.include_padding bytes bs pe = some bytes2
      ∧ bytes2.length = bytes.length := by
  rw [sha_common.include_padding, if_pos ⟨h1, h2⟩]
  refine ⟨_, rfl, ?_⟩
  simp [List.length_take, List.length_drop]
  omega

/-- On a 64-byte buffer with an in-range occupied count, `pad_input` tagged
`SHA1` succeeds and hands back a 64-byte buffer (provided the
no-separator call starts at or below the length-field threshold, as all the
source's calls do). -/
theorem pad_input_64_some (bytes : List Nat) (bs ml : Nat) (sep : Bool)
    (hlen : bytes.length = 64) (hbs : bs < 64) (hsep : sep = true ∨ bs ≤ 56) :
    ∃ status bytes2,
      sha_common.pad_input bytes bs ml SHA.SHA1 sep = some (status, bytes2)
        ∧ bytes2.length = 64 := by
  have hne : ¬ ((64 : Nat) = bs) := by omega
  cases sep with
  | false =>
    have hbs56 : bs ≤ 56 := hsep.resolve_left (by simp)
    obtain ⟨bytes2, hb2, hl2⟩ := include_length_64_some bytes ml hlen
    obtain ⟨bytes3, hb3, hl3⟩ := include_padding_some bytes2 bs (bytes2.length - 8)
      (by omega) (by omega)
    refine ⟨2, bytes3, ?_, by omega⟩
    simp [sha_common.pad_input, sha_common.PADDING_PARAMETERS, hlen, hne, hb2, hb3]
  | true =>
    by_cases hroom : 64 - (bs + 1) < 8
    · have hroom2 : ¬ (8 ≤ 63 - bs) := by omega
      refine ⟨1, bytes.set bs 128, ?_, by simp [hlen]⟩
      simp [sha_common.pad_input, sha_common.include_separator, sha_common.PADDING_PARAMETERS,
        hlen, hne, hbs, hroom2]
    · have hl1 : (bytes.set bs 128).length = 64 := by simp [hlen]
      obtain ⟨bytes2, hb2, hl2⟩ := include_length_64_some (bytes.set bs 128) ml hl1
      obtain ⟨bytes3, hb3, hl3⟩ := include_padding_some bytes2 (bs + 1) (bytes2.length - 8)
        (by omega) (by omega)
      refine ⟨2, bytes3, ?_, by omega⟩
      simp [sha_common.pad_input, sha_common.include_separator, sha_common.PADDING_PARAMETERS,
        hlen, hne, hbs, hb2, hb3]
      omega

/-- Rust `sha1::update_hash_variables` preserves the state length. -/
theorem sha1_update_hash_variables_length (vars hv : List Nat) :
    (sha1.update_hash_variables vars hv).length = hv.length :=
  foldl_set_length (fun ws j => wadd32 (vars.getD j 0) (ws.getD j 0)) (List.range 5) hv

/-- Rust `sha1::process_block` preserves the state length. -/
theorem sha1_process_block_length (bytes hv : List Nat) :
    (sha1.process_block bytes hv).length = hv.length :=
  sha1_update_hash_variables_length _ _

/-- Rust `sha256::update_hash_variables` preserves the state length. -/
theorem sha256_update_hash_variables_length (vars hv : List Nat) :
    (sha256.update_hash_variables vars hv).length = hv.length :=
  foldl_set_length (fun ws j => wadd32 (vars.getD j 0) (ws.getD j 0)) (List.range 8) hv

/-- Rust `sha256::process_block` preserves the state length. -/
theorem sha256_process_block_length (bytes hv : List Nat) :
    (sha256.process_block bytes hv).length = hv.length :=
  sha256_update_hash_variables_length _ _

/-- Rust `sha1::process_final_block` succeeds on a 64-byte buffer with a partial
fill and yields a 5-word state. -/
theorem sha1_process_final_block_some (bytes hv : List Nat) (block_id buffer_size : Nat)
    (hlen : bytes.length = 64) (hbs : buffer_size < 64) (hhv : hv.length = 5) :
    ∃ hv2, sha1.process_final_block bytes hv block_id buffer_size = some hv2
      ∧ hv2.length = 5 := by
  obtain ⟨status, bytes1, hpad1, hlen1⟩ := pad_input_64_some bytes buffer_size
    (sha1.final_message_length block_id buffer_size) true hlen hbs (Or.inl rfl)
  by_cases hs : status < 2
  · obtain ⟨status2, bytes2, hpad2, hlen2⟩ := pad_input_64_some bytes1 0 block_id
      (status != 1) hlen1 (by omega) (Or.inr (by omega))
    refine ⟨sha1.process_block bytes2 (sha1.process_block bytes1 hv), ?_, ?_⟩
    · simp [sha1.process_final_block, hpad1, hs, hpad2]
    · rw [sha1_process_block_length, sha1_process_block_length]
      exact hhv
  · refine ⟨sha1.process_block bytes1 hv, ?_, ?_⟩
    · simp [sha1.process_final_block, hpad1, hs]
    · rw [sha1_process_block_length]
      exact hhv

/-- Rust `sha256::process_final_block` succeeds on a 64-byte buffer with a partial
fill and yields an 8-word state. -/
theorem sha256_process_final_block_some (bytes hv : List Nat) (block_id buffer_size : Nat)
    (hlen : bytes.length = 64) (hbs : buffer_size < 64) (hhv : hv.length = 8) :
    ∃ hv2, sha256.process_final_block bytes hv block_id buffer_size = some hv2
      ∧ hv2.length = 8 := by
  obtain ⟨status, bytes1, hpad1, hlen1⟩ := pad_input_64_some bytes buffer_size
    (sha256.final_message_length block_id buffer_size) true hlen hbs (Or.inl rfl)
  by_cases hs : status < 2
  · obtain ⟨status2, bytes2, hpad2, hlen2⟩ := pad_input_64_some bytes1 0 block_id
      (status != 1) hlen1 (by omega) (Or.inr (by omega))
    refine ⟨sha256.process_block bytes2 (sha256.process_block bytes1 hv), ?_, ?_⟩
    · simp [sha256.process_final_block, hpad1, hs, hpad2]
    · rw [sha256_process_block_length, sha256_process_block_length]
      exact hhv
  · refine ⟨sha256.process_block bytes1 hv, ?_, ?_⟩
    · simp [sha256.process_final_block, hpad1, hs]
    · rw [sha256_process_block_length]
      exact hhv

/-- Behavior of the SHA-1 read loop: with enough fuel it processes
`input.length / 64` full blocks, exits with the residual fill as the buffer
size, and preserves the buffer and state lengths. -/
theorem sha1_hash_loop_spec :
    ∀ (fuel : Nat) (input buffer hv : List Nat) (iteration : Nat),
      input.length < 64 * fuel → buffer.length = 64 → hv.length = 5 →
      ∃ buffer2 hv2,
        sha1.hash_loop fuel input buffer iteration hv
          = (buffer2, input.length % 64, iteration + input.length / 64, hv2)
        ∧ buffer2.length = 64 ∧ hv2.length = 5
  | 0, _, _, _, _, hfuel, _, _ => absurd hfuel (by omega)
  | fuel + 1, input, buffer, hv, iteration, hfuel, hbuf, hhv => by
    rcases Nat.lt_or_ge input.length 64 with hsmall | hbig
    · have hmin : min 64 input.length = input.length := by omega
      have hmod : input.length % 64 = input.length := Nat.mod_eq_of_lt hsmall
      have hdiv : input.length / 64 = 0 := Nat.div_eq_of_lt hsmall
      refine ⟨input.take input.length ++ buffer.drop input.length, hv, ?_, ?_, hhv⟩
      · simp [sha1.hash_loop, hmin, hmod, hdiv, hsmall]
      · simp [List.length_take, List.length_drop]
        omega
    · have hmin : min 64 input.length = 64 := by omega
      have hb1 : (input.take 64 ++ buffer.drop 64).length = 64 := by
        simp [List.length_take, List.length_drop]
        omega
      obtain ⟨buffer2, hv2, hrec, hbl2, hhv2⟩ := sha1_hash_loop_spec fuel (input.drop 64)
        (input.take 64 ++ buffer.drop 64)
        (sha1.process_block (input.take 64 ++ buffer.drop 64) hv) (iteration + 1)
        (by simp [List.length_drop]; omega) hb1
        (by rw [sha1_process_block_length]; exact hhv)
      refine ⟨buffer2, hv2, ?_, hbl2, hhv2⟩
      simp only [sha1.hash_loop, hmin]
      rw [if_neg (by omega : ¬ ((64 : Nat) < 64)), hrec]
      simp only [Prod.mk.injEq, List.length_drop]
      exact ⟨trivial, by omega, by omega, trivial⟩

/-- Behavior of the SHA-256 read loop (same shape as the SHA-1 one). -/
theorem sha256_hash_loop_spec :
    ∀ (fuel : Nat) (input buffer hv : List Nat) (iteration : Nat),
      input.length < 64 * fuel → buffer.length = 64 → hv.length = 8 →
      ∃ buffer2 hv2,
        sha256.hash_loop fuel input buffer iteration hv
          = (buffer2, input.length % 64, iteration + input.length / 64, hv2)
        ∧ buffer2.length = 64 ∧ hv2.length = 8
  | 0, _, _, _, _, hfuel, _, _ => absurd hfuel (by omega)
  | fuel + 1, input, buffer, hv, iteration, hfuel, hbuf, hhv => by
    rcases Nat.lt_or_ge input.length 64 with hsmall | hbig
    · have hmin : min 64 input.length = input.length := by omega
      have hmod : input.length % 64 = input.length := Nat.mod_eq_of_lt hsmall
      have hdiv : input.length / 64 = 0 := Nat.div_eq_of_lt hsmall
      refine ⟨input.take input.length ++ buffer.drop input.length, hv, ?_, ?_, hhv⟩
      · simp [sha256.hash_loop, hmin, hmod, hdiv, hsmall]
      · simp [List.length_take, List.length_drop]
        omega
    · have hmin : min 64 input.length = 64 := by omega
      have hb1 : (input.take 64 ++ buffer.drop 64).length = 64 := by
        simp [List.length_take, List.length_drop]
        omega
      obtain ⟨buffer2, hv2, hrec, hbl2, hhv2⟩ := sha256_hash_loop_spec fuel (input.drop 64)
        (input.take 64 ++ buffer.drop 64)
        (sha256.process_block (input.take 64 ++ buffer.drop 64) hv) (iteration + 1)
        (by simp [List.length_drop]; omega) hb1
        (by rw [sha256_process_block_length]; exact hhv)
      refine ⟨buffer2, hv2, ?_, hbl2, hhv2⟩
      simp only [sha256.hash_loop, hmin]
      rw [if_neg (by omega : ¬ ((64 : Nat) < 64)), hrec]
      simp only [Prod.mk.injEq, List.length_drop]
      exact ⟨trivial, by omega, by omega, trivial⟩

/-- For an input below the length bound, `sha1::hash` succeeds and the
digest is the hex rendering of a 5-word state. -/
theorem sha1_hash_some (message : List Nat) (h : message.length < 2 ^ 61) :
    ∃ hv3 : List Nat, sha1.hash message = some (String.mk ((hv3.map to_hex_8).flatten))
      ∧ hv3.length = 5 := by
  obtain ⟨buffer2, hv2, hloop, hbl2, hhv2⟩ := sha1_hash_loop_spec (2 ^ 61) message
    (List.replicate 64 0) sha1.INITIAL 0
    (lt_of_lt_of_le h (Nat.le_mul_of_pos_left _ (by norm_num))) (by simp) rfl
  obtain ⟨hv3, hfin, hl3⟩ := sha1_process_final_block_some buffer2 hv2
    (0 + message.length / 64) (message.length % 64) hbl2 (Nat.mod_lt _ (by norm_num)) hhv2
  have hit : 0 + message.length / 64 < 2 ^ 61 := by
    have : message.length / 64 ≤ message.length := Nat.div_le_self _ _
    omega
  refine ⟨hv3, ?_, hl3⟩
  simp only [sha1.hash, show (sha_common.PADDING_PARAMETERS[0]).block_size = 64 from rfl,
    hloop, hit, if_true, hfin]

/-- For an input below the length bound, `sha256::hash` succeeds and the
digest is the hex rendering of an 8-word state. -/
theorem sha256_hash_some (message : List Nat) (h : message.length < 2 ^ 61) :
    ∃ hv3 : List Nat, sha256.hash message = some (String.mk ((hv3.map to_hex_8).flatten))
      ∧ hv3.length = 8 := by
  obtain ⟨buffer2, hv2, hloop, hbl2, hhv2⟩ := sha256_hash_loop_spec (2 ^ 61) message
    (List.replicate 64 0) sha256.INITIAL 0
    (lt_of_lt_of_le h (Nat.le_mul_of_pos_left _ (by norm_num))) (by simp) rfl
  obtain ⟨hv3, hfin, hl3⟩ := sha256_process_final_block_some buffer2 hv2
    (0 + message.length / 64) (message.length % 64) hbl2 (Nat.mod_lt _ (by norm_num)) hhv2
  have hit : 0 + message.length / 64 < 2 ^ 61 := by
    have : message.length / 64 ≤ message.length := Nat.div_le_self _ _
    omega
  refine ⟨hv3, ?_, hl3⟩
  simp only [sha256.hash, show (sha_common.PADDING_PARAMETERS[0]).block_size = 64 from rfl,
    hloop, hit, if_true, hfin]

/-- The sixteen lowercase hex digits. -/
def lower_hex_chars : List Char := "0123456789abcdef".toList

/-- Every output of `hex_char` is a lowercase hex digit. -/
theorem hex_char_mem (d : Nat) : hex_char d ∈ lower_hex_chars := by
  rw [hex_char, lower_hex_chars, List.getD_eq_getElem?_getD]
  rcases Nat.lt_or_ge d "0123456789abcdef".toList.length with hd | hd
  · rw [List.getElem?_eq_getElem hd, Option.getD_some]
    exact List.getElem_mem hd
  · rw [List.getElem?_eq_none hd, Option.getD_none]
    decide

/-- The rendered digest has 8 characters per state word. -/
theorem flatten_map_to_hex_8_length :
    ∀ hv : List Nat, ((hv.map to_hex_8).flatten).length = 8 * hv.length
  | [] => rfl
  | w :: rest => by
    simp [to_hex_8, flatten_map_to_hex_8_length rest]
    omega

/-- Every character of a rendered digest is a lowercase hex digit. -/
theorem flatten_map_to_hex_8_mem (hv : List Nat) :
    ∀ c ∈ (hv.map to_hex_8).flatten, c ∈ lower_hex_chars := by
  intro c hc
  rw [List.mem_flatten] at hc
  obtain ⟨l, hl, hcl⟩ := hc
  rw [List.mem_map] at hl
  obtain ⟨w, hw, rfl⟩ := hl
  rw [to_hex_8, List.mem_map] at hcl
  obtain ⟨i, hi, rfl⟩ := hcl
  exact hex_char_mem _

/-- C5 (amended): for every 64-byte buffer and message length, a padding
invocation with `writeSeparator = true` at occupied count 63 — one byte less
than the block size — writes the separator but returns
`SeparatorWrittenButNoRoomForLength` (status 1), spilling into a second
block; and at occupied count 56 — block size minus the length-field size —
it likewise returns status 1. -/
theorem pad_boundary_amended (bytes : List Nat) (message_length : Nat) (h : bytes.length = 64) :
    (sha_common.pad_input bytes 63 message_length SHA.SHA1 true).map Prod.fst = some 1 ∧
    (sha_common.pad_input bytes 56 message_length SHA.SHA1 true).map Prod.fst = some 1 := by
  constructor <;>
    simp [sha_common.pad_input, sha_common.include_separator, sha_common.PADDING_PARAMETERS, h]

/-- Witness for C5's amended boundary theorem at the all-zero buffer with
message bit length 504. -/
theorem pad_boundary_amended_witness :
    (sha_common.pad_input (List.replicate 64 0) 63 504 SHA.SHA1 true).map Prod.fst = some 1 ∧
    (sha_common.pad_input (List.replicate 64 0) 56 504 SHA.SHA1 true).map Prod.fst = some 1 :=
  pad_boundary_amended (List.replicate 64 0) 504 (by simp)

/-- C1: SHA-1 of the empty input and of the 43-byte
"The quick brown fox jumps over the lazy dog" are
`da39a3ee5e6b4b0d3255bfef95601890afd80709` and
`2fd4e1c67a2d28fced849ee1bb76e7391b93eb12`; SHA-256 of the same two inputs
are `e3b0c44298fc1c149afbf4c8996fb92427ae41e4649b934ca495991b7852b855` and
`d7a8fbb307d7809469ca9abcb0082e4f8d5651e46d3cdb762d02d0bf37c9e592`. -/
theorem sha_known_vectors :
    sha1.hash [] = some "da39a3ee5e6b4b0d3255bfef95601890afd80709" ∧
    sha1.hash (str_bytes "The quick brown fox jumps over the lazy dog")
      = some "2fd4e1c67a2d28fced849ee1bb76e7391b93eb12" ∧
    sha256.hash [] = some "e3b0c44298fc1c149afbf4c8996fb92427ae41e4649b934ca495991b7852b855" ∧
    sha256.hash (str_bytes "The quick brown fox jumps over the lazy dog")
      = some "d7a8fbb307d7809469ca9abcb0082e4f8d5651e46d3cdb762d02d0bf37c9e592" :=
  ⟨rfl, rfl, rfl, rfl⟩

/-- C2 (code bug evidence): after one full 64-byte block (`block_id = 1`,
`buffer_size = 0`), the `message_length` both finalizers pass to the first
padding invocation is `(1 * (64 * 4) + 0) * 8 = 2048`, not the true bit
length `(1 * 64 + 0) * 8 = 512` that the claim states: the source multiplies
the byte-denominated `block_size` by `WORD_SIZE_BYTES` again. -/
theorem sha_final_message_length_value :
    sha1.final_message_length 1 0 = 2048 ∧
    sha256.final_message_length 1 0 = 2048 ∧
    (1 * 64 + 0) * 8 = 512 ∧
    sha1.final_message_length 1 0 ≠ (1 * 64 + 0) * 8 := by decide

/-- C3 (code bug evidence): for a 56-byte message (`block_id = 0`,
`buffer_size = 56`, total bit length 448) the first padding invocation
spills (status 1, separator written, no zero-fill), and the second
invocation — which `process_final_block` makes with `message_length = block_id = 0`
— produces a final block whose trailing length field is all zero, whereas
passing the previously computed bit length 448 would end it with `..., 1, 192`. -/
theorem second_pad_receives_block_id_eval :
    sha_common.pad_input (List.replicate 56 1 ++ List.replicate 8 0) 56
        (sha1.final_message_length 0 56) SHA.SHA1 true
      = some (1, List.replicate 56 1 ++ 128 :: List.replicate 7 0) ∧
    sha_common.pad_input (List.replicate 56 1 ++ 128 :: List.replicate 7 0) 0 0 SHA.SHA1 false
      = some (2, List.replicate 64 0) ∧
    sha_common.pad_input (List.replicate 56 1 ++ 128 :: List.replicate 7 0) 0 448 SHA.SHA1 false
      = some (2, List.replicate 56 0 ++ [0, 0, 0, 0, 0, 0, 1, 192]) := by decide

/-- C4 (code bug evidence): for the 120-byte message
`[2; 64] ++ [3; 56]`, the reused block buffer after the read loop is
`[3; 56] ++ [2; 8]` (stale tail from the first block), and the padding call
that spills (status 1) leaves those stale bytes after the `0x80` separator,
so the block compressed next is `[3; 56] ++ 0x80 :: [2; 7]` — not zero-filled
as the claim requires. -/
theorem spill_block_keeps_stale_bytes_eval :
    (sha1.hash_loop (2 ^ 61) (List.replicate 64 2 ++ List.replicate 56 3)
        (List.replicate 64 0) 0 sha1.INITIAL).1
      = List.replicate 56 3 ++ List.replicate 8 2 ∧
    (sha1.hash_loop (2 ^ 61) (List.replicate 64 2 ++ List.replicate 56 3)
        (List.replicate 64 0) 0 sha1.INITIAL).2.1 = 56 ∧
    (sha1.hash_loop (2 ^ 61) (List.replicate 64 2 ++ List.replicate 56 3)
        (List.replicate 64 0) 0 sha1.INITIAL).2.2.1 = 1 ∧
    sha_common.pad_input (List.replicate 56 3 ++ List.replicate 8 2) 56
        (sha1.final_message_length 1 56) SHA.SHA1 true
      = some (1, List.replicate 56 3 ++ 128 :: List.replicate 7 2) ∧
    List.replicate 7 2 ≠ List.replicate 7 (0 : Nat) := by decide

/-- C5 (counterexample): for a final fill of 63 bytes (one less than the
block size) the padding invocation does NOT complete in the same block: the
separator occupies the 64th byte, no room remains for the length field, and
the status is `1` (`SeparatorWrittenButNoRoomForLength`), not `2`
(`PaddingComplete`) as the claim states. -/
theorem pad_at_63_spills_counterexample :
    (sha_common.pad_input (List.replicate 64 0) 63 504 SHA.SHA1 true).map Prod.fst = some 1 ∧
    (sha_common.pad_input (List.replicate 64 0) 63 504 SHA.SHA1 true).map Prod.fst ≠ some 2 := by
  decide

/-- C6: for every input, requesting SHA-224, SHA-384, SHA-512, SHA-512/224
or SHA-512/256 makes the top-level entry point fail with
`UnsupportedAlgorithm` (the `unimplemented!` arm), never a digest. -/
theorem unsupported_algorithms_yield_error (message : List Nat) :
    hash message SHA.SHA224 = Except.error ShaFailure.UnsupportedAlgorithm ∧
    hash message SHA.SHA384 = Except.error ShaFailure.UnsupportedAlgorithm ∧
    hash message SHA.SHA512 = Except.error ShaFailure.UnsupportedAlgorithm ∧
    hash message SHA.SHA512_224 = Except.error ShaFailure.UnsupportedAlgorithm ∧
    hash message SHA.SHA512_256 = Except.error ShaFailure.UnsupportedAlgorithm :=
  ⟨rfl, rfl, rfl, rfl, rfl⟩

/-- C7 (counterexample): at the concrete input `""` with SHA-1 the top-level
dispatcher returns no digest value to its caller (the Rust function returns
`()`); the 40-character digest only appears in the printed output. -/
theorem dispatcher_returns_no_digest_counterexample :
    (hash [] SHA.SHA1).map DispatchResult.returned = Except.ok none ∧
    (hash [] SHA.SHA1).map DispatchResult.printed
      = Except.ok ["Hash Result: da39a3ee5e6b4b0d3255bfef95601890afd80709"] :=
  ⟨rfl, rfl⟩

/-- C8: for every 64-byte block, the SHA-1 message schedule built by
`process_block` has 80 entries, entries `0..16` are the big-endian 32-bit
reinterpretation of the block's bytes, and every entry `i ∈ [16, 80)` equals
`rotate_left(words[i-3] ^^^ words[i-8] ^^^ words[i-14] ^^^ words[i-16], 1)`. -/
theorem sha1_message_schedule_spec (bytes : List Nat) (h : bytes.length = 64) :
    (sha1.expand_words (sha1.fill_words bytes)).length = 80 ∧
    (∀ i, i < 16 →
      (sha1.expand_words (sha1.fill_words bytes)).getD i 0 = sha1.word_at bytes i) ∧
    (∀ i, 16 ≤ i → i < 80 →
      (sha1.expand_words (sha1.fill_words bytes)).getD i 0
        = rotl32 ((sha1.expand_words (sha1.fill_words bytes)).getD (i - 3) 0
            ^^^ (sha1.expand_words (sha1.fill_words bytes)).getD (i - 8) 0
            ^^^ (sha1.expand_words (sha1.fill_words bytes)).getD (i - 14) 0
            ^^^ (sha1.expand_words (sha1.fill_words bytes)).getD (i - 16) 0) 1) := by
  have hfill : sha1.fill_words bytes
      = (List.range' 0 16).foldl (fun ws k => ws.set k (sha1.word_at bytes k))
          (List.replicate 80 0) := by
    rw [sha1.fill_words, h, ← List.range_eq_range']
    rfl
  have hfl : (sha1.fill_words bytes).length = 80 := by
    rw [hfill, foldl_set_length]
    simp
  have hexp : sha1.expand_words (sha1.fill_words bytes)
      = (List.range' 16 64).foldl
          (fun ws k => ws.set k (rotl32 (0 ^^^ ws.getD (k - 3) 0 ^^^ ws.getD (k - 8) 0
            ^^^ ws.getD (k - 14) 0 ^^^ ws.getD (k - 16) 0) 1))
          (sha1.fill_words bytes) := rfl
  refine ⟨?_, ?_, ?_⟩
  · rw [hexp, foldl_set_length]
    exact hfl
  · intro i hi
    rw [hexp, foldl_set_getD_lt _ 64 16 i _ hi, hfill,
      foldl_set_getD_final (fun ws k => sha1.word_at bytes k) 0 16 i (List.replicate 80 0)
        (Nat.zero_le i) (by omega) (by simp; omega) (fun _ _ _ => rfl)]
  · intro i h16 h80
    have hmain := foldl_set_getD_final
      (fun ws k => rotl32 (0 ^^^ ws.getD (k - 3) 0 ^^^ ws.getD (k - 8) 0
        ^^^ ws.getD (k - 14) 0 ^^^ ws.getD (k - 16) 0) 1)
      16 64 i (sha1.fill_words bytes) h16 (by omega) (by rw [hfl]; omega)
      (fun ws1 ws2 hws => by
        simp only [hws (i - 3) (by omega), hws (i - 8) (by omega), hws (i - 14) (by omega),
          hws (i - 16) (by omega)])
    simp only at hmain
    rw [hexp, hmain, Nat.zero_xor]

/-- Witness for C8's schedule theorem at the all-zero 64-byte block. -/
theorem sha1_message_schedule_spec_witness :
    (sha1.expand_words (sha1.fill_words (List.replicate 64 0))).length = 80 ∧
    (∀ i, i < 16 →
      (sha1.expand_words (sha1.fill_words (List.replicate 64 0))).getD i 0
        = sha1.word_at (List.replicate 64 0) i) ∧
    (∀ i, 16 ≤ i → i < 80 →
      (sha1.expand_words (sha1.fill_words (List.replicate 64 0))).getD i 0
        = rotl32 ((sha1.expand_words (sha1.fill_words (List.replicate 64 0))).getD (i - 3) 0
            ^^^ (sha1.expand_words (sha1.fill_words (List.replicate 64 0))).getD (i - 8) 0
            ^^^ (sha1.expand_words (sha1.fill_words (List.replicate 64 0))).getD (i - 14) 0
            ^^^ (sha1.expand_words (sha1.fill_words (List.replicate 64 0))).getD (i - 16) 0) 1) :=
  sha1_message_schedule_spec (List.replicate 64 0) (by simp)

/-- C7 (amended): for every input below the 2^61-byte bound, the
per-algorithm streaming hashers return the digest as a fixed-length
lowercase hex string — 40 characters for SHA-1, 64 for SHA-256 — and the
top-level dispatcher prints exactly that string (one `Hash Result:` line)
while returning no value to its caller. -/
theorem dispatcher_prints_digest_amended (message : List Nat) (h : message.length < 2 ^ 61) :
    (∃ s : String, sha1.hash message = some s ∧ s.length = 40
      ∧ (∀ c ∈ s.toList, c ∈ lower_hex_chars)
      ∧ hash message SHA.SHA1
          = Except.ok { returned := none, printed := ["Hash Result: " ++ s] }) ∧
    (∃ s : String, sha256.hash message = some s ∧ s.length = 64
      ∧ (∀ c ∈ s.toList, c ∈ lower_hex_chars)
      ∧ hash message SHA.SHA256
          = Except.ok { returned := none, printed := ["Hash Result: " ++ s] }) := by
  obtain ⟨hv1, hs1, hl1⟩ := sha1_hash_some message h
  obtain ⟨hv2, hs2, hl2⟩ := sha256_hash_some message h
  constructor
  · refine ⟨String.mk ((hv1.map to_hex_8).flatten), hs1, ?_, ?_, ?_⟩
    · show ((hv1.map to_hex_8).flatten).length = 40
      rw [flatten_map_to_hex_8_length, hl1]
    · show ∀ c ∈ (hv1.map to_hex_8).flatten, c ∈ lower_hex_chars
      exact flatten_map_to_hex_8_mem hv1
    · simp only [hash, h, if_true, hs1, dispatch_result]
  · refine ⟨String.mk ((hv2.map to_hex_8).flatten), hs2, ?_, ?_, ?_⟩
    · show ((hv2.map to_hex_8).flatten).length = 64
      rw [flatten_map_to_hex_8_length, hl2]
    · show ∀ c ∈ (hv2.map to_hex_8).flatten, c ∈ lower_hex_chars
      exact flatten_map_to_hex_8_mem hv2
    · simp only [hash, h, if_true, hs2, dispatch_result]

/-- Witness for C7's amended dispatcher theorem at the empty input. -/
theorem dispatcher_prints_digest_amended_witness :
    (∃ s : String, sha1.hash [] = some s ∧ s.length = 40
      ∧ (∀ c ∈ s.toList, c ∈ lower_hex_chars)
      ∧ hash [] SHA.SHA1
          = Except.ok { returned := none, printed := ["Hash Result: " ++ s] }) ∧
    (∃ s : String, sha256.hash [] = some s ∧ s.length = 64
      ∧ (∀ c ∈ s.toList, c ∈ lower_hex_chars)
      ∧ hash [] SHA.SHA256
          = Except.ok { returned := none, printed := ["Hash Result: " ++ s] }) :=
  dispatcher_prints_digest_amended [] (by decide)

/-- C9 (code bug evidence): for the 128-byte family every padding invocation
that reaches the length-writing step panics instead of completing:
`to_be_bytes` of the 64-bit `usize` message length has 8 entries, but with
`length_size = 16` the loop reads `length[8 - 1 - i]` for `i` up to 15, an
out-of-range index.  Here: 128-byte zero buffer, occupied 0, bit length 0. -/
theorem pad_128_family_length_write_panics :
    sha_common.pad_input (List.replicate 128 0) 0 0 SHA.SHA512 true = none ∧
    sha_common.include_length (List.replicate 128 0) 0 16 = none := by decide

/-- C10: `sha256::process_final_block` tags its `pad_input` calls with
`SHA::SHA1`, but `pad_input` selects the same `PADDING_PARAMETERS[0]` entry
for `SHA1` and `SHA256`, so for every buffer, occupied count, message length
and separator flag the two tags behave identically — and the SHA-256
finalizer is extensionally the `SHA256`-tagged variant. -/
theorem sha256_padding_sha1_tag_equivalent :
    (∀ (bytes : List Nat) (buffer_size message_length : Nat) (sep : Bool),
      sha_common.pad_input bytes buffer_size message_length SHA.SHA1 sep
        = sha_common.pad_input bytes buffer_size message_length SHA.SHA256 sep) ∧
    (∀ (bytes hv : List Nat) (block_id buffer_size : Nat),
      sha256.process_final_block bytes hv block_id buffer_size
        = sha256.process_final_block_sha256_tagged bytes hv block_id buffer_size) :=
  ⟨fun _ _ _ _ => rfl, fun _ _ _ _ => rfl⟩

end Blockchain
